import Mathlib

/-!
Shallow embedding of the `cool` arena allocator (`src/arena.h`).

The C data type is

  typedef struct Arena {
      uintptr_t *_region;
      uintptr_t _size;
      uintptr_t _alloc_size;
      struct Arena *_next;
  } Arena;

A chain node is modelled by `Region`, whose fields mirror the C fields:
`region` is the numeric value of the `_region` pointer (0 is NULL; a
nonzero value is the abstract base address that the backing allocator
returned), `size` is `_size` (units already handed out) and `allocSize`
is `_alloc_size` (unit capacity).  The `_next` linkage is represented
positionally: an arena is the `List Region` of nodes reachable from the
head, in chain order, so "region i's next link" is the identity or
absence of entry i+1 of the list.

`uintptr_t` arithmetic is arithmetic modulo 2^64, written explicitly
with `% UPTR` wherever the C code can wrap (the free-space subtraction
`_alloc_size - _size`, the doubling `new_capacity << 1`, and the bump
`_size += size`).

Calls into the backing allocator (`COOL_ARENA_FUNC_ALLOC`, i.e. malloc)
are modelled by oracle arguments: `mr : Nat` is the value malloc would
return for the new region buffer (0 = NULL = failure, matching the C
convention) and `mn : Bool` tells whether the malloc of a new chain node
succeeds.  `Arena_alloc` returns the pair of the C function's return
value (the pointer, 0 for NULL) and the chain after the call.
-/

/-- 2^64, the number of values of `uintptr_t` on the reference platform. -/
def UPTR : Nat := 18446744073709551616

/-- One chain node of the arena: the C `struct Arena` without its
`_next` pointer, which the `List Region` embedding keeps positionally. -/
structure Region where
  region : Nat
  size : Nat
  allocSize : Nat
deriving DecidableEq

/-- `Arena_init` (src/arena.h:168-173): `_region = NULL`, `_size = 0`,
`_alloc_size = 0`, `_next = NULL`; as a chain this is the one-node list
`[Arena_init]`. -/
def Arena_init : Region := ⟨0, 0, 0⟩

/-- `COOL_ARENA_DEF_SIZE` (src/arena.h:137-139): `8 * 1024`. -/
def COOL_ARENA_DEF_SIZE : Nat := 8 * 1024

/-- The byte-to-unit conversion `size = (size >> 2) + 1`
(src/arena.h:184-185); `>> 2` on an unsigned value is division by 4. -/
def toUnitCount (sizeBytes : Nat) : Nat := sizeBytes / 4 + 1

/-- The free-space expression `arena->_alloc_size - arena->_size`
(src/arena.h:191,200): `uintptr_t` subtraction, i.e. subtraction modulo
2^64. -/
def freeUnits (r : Region) : Nat := (r.allocSize + UPTR - r.size) % UPTR

/-- The fast-path update `arena->_size += size` (src/arena.h:202):
`uintptr_t` addition, modulo 2^64. -/
def bumpRegion (r : Region) (s : Nat) : Region :=
  { r with size := (r.size + s) % UPTR }

/-- The capacity-doubling loop of `Arena_alloc` (src/arena.h:213-220):

    while (new_capacity < size) {
        if (new_capacity > new_capacity << 1) return NULL;
        new_capacity <<= 1;
    }

`new_capacity << 1` is `cap * 2 % UPTR`.  The loop is totalized with a
fuel argument; starting from `COOL_ARENA_DEF_SIZE = 2^13` the loop body
runs at most 51 times (it reaches `size` or detects the wrap at 2^63),
so the fuel of 64 used by `growCapacity` is never exhausted. -/
def growLoop : Nat → Nat → Nat → Option Nat
  | 0, _, _ => none
  | fuel + 1, cap, s =>
    if cap < s then
      if cap > cap * 2 % UPTR then none
      else growLoop fuel (cap * 2 % UPTR) s
    else some cap

/-- The capacity computation of the growth path: start at
`COOL_ARENA_DEF_SIZE` and run the doubling loop (src/arena.h:211-220).
`none` is the overflow `return NULL`. -/
def growCapacity (s : Nat) : Option Nat := growLoop 64 COOL_ARENA_DEF_SIZE s

/-- The growth path of `Arena_alloc` at the node the search stopped on
(src/arena.h:206-247), for a request of `s` units:

* `growCapacity s = none` → `return NULL`, nothing mutated;
* malloc of the buffer fails (`mr = 0`) → `return NULL`, nothing mutated;
* the stopped node already has a buffer (`r.region ≠ 0`): a new chain
  node is malloc'd (failure `mn = false` → `return NULL`, nothing
  mutated), `Arena_init`ed, linked as `r`'s next, and the buffer is
  installed on it with `_size += s` starting from 0;
* the stopped node is blank (`r.region = 0`): the buffer is installed on
  `r` in place and `_size += s` starts from `r.size`.

The result is the returned pointer (`arena->_region`, i.e. `mr`) and the
list of nodes that replaces the one-node segment `[r]` of the chain. -/
def growAt (mr : Nat) (mn : Bool) (s : Nat) (r : Region) : Nat × List Region :=
  match growCapacity s with
  | none => (0, [r])
  | some newCap =>
    if mr = 0 then (0, [r])
    else if r.region ≠ 0 then
      if mn then (mr, [r, { region := mr, size := s % UPTR, allocSize := newCap }])
      else (0, [r])
    else (mr, [{ region := mr, size := (r.size + s) % UPTR, allocSize := newCap }])

/-- The search loop and dispatch of `Arena_alloc` (src/arena.h:187-247)
after the byte count has been converted to `s` units.  At each node:
the loop breaks when the node fits (`s ≤ freeUnits r`) or has no next
node; a fitting node serves the fast path (src/arena.h:199-204,
returning `_region + _size` and bumping `_size`), a non-fitting tail
takes the growth path, and otherwise the walk moves to the next node. -/
def allocUnits (mr : Nat) (mn : Bool) (s : Nat) : List Region → Nat × List Region
  | [] => (0, [])
  | r :: rest =>
    if s ≤ freeUnits r then
      (r.region + r.size, bumpRegion r s :: rest)
    else if rest = [] then
      growAt mr mn s r
    else
      ((allocUnits mr mn s rest).1, r :: (allocUnits mr mn s rest).2)

/-- `Arena_alloc` (src/arena.h:175-248): a zero byte count returns NULL
with no effect; otherwise the byte count is converted to units and the
search runs.  `mr`/`mn` are the malloc oracles described in the module
documentation. -/
def Arena_alloc (mr : Nat) (mn : Bool) (sizeBytes : Nat) (chain : List Region) :
    Nat × List Region :=
  if sizeBytes = 0 then (0, chain)
  else allocUnits mr mn (toUnitCount sizeBytes) chain

/-- `Arena_reset` (src/arena.h:250-256): walk the chain setting
`_size = 0` on every node; buffers and capacities are untouched. -/
def Arena_reset (chain : List Region) : List Region :=
  chain.map fun r => { r with size := 0 }

/-- `Arena_free` (src/arena.h:258-275): the loop frees each node's
buffer and sets `_region = NULL`, and detaches every `_next` pointer as
it walks.  Nodes beyond the head therefore become unreachable from the
head (their node memory is never freed), so the chain reachable from the
head afterwards is exactly the head with its buffer cleared — and with
`_size` and `_alloc_size` left at their pre-call values, since the loop
never writes them. -/
def Arena_free : List Region → List Region
  | [] => []
  | h :: _ => [{ h with region := 0 }]

/-- The fast path of `Arena_alloc` restricted to its serving node
(src/arena.h:199-204): if the request fits in the node's free space the
node's `_size` is bumped, otherwise this node does not serve. -/
def fastServe (r : Region) (s : Nat) : Option Region :=
  if s ≤ freeUnits r then some (bumpRegion r s) else none

/-- A sequence of fast-path allocations all served from the same node:
the node after each request, or `none` if some request does not fit. -/
def serveSeq : Region → List Nat → Option Region
  | r, [] => some r
  | r, s :: ss =>
    match fastServe r s with
    | none => none
    | some r' => serveSeq r' ss

/-! ## Basic facts about the embedding -/

theorem UPTR_eq : UPTR = 2 ^ 64 := by norm_num [UPTR]

theorem freeUnits_eq (r : Region) (h1 : r.size ≤ r.allocSize) (h2 : r.allocSize < UPTR) :
    freeUnits r = r.allocSize - r.size := by
  unfold freeUnits
  rw [Nat.sub_add_comm h1, Nat.add_mod_right]
  exact Nat.mod_eq_of_lt (lt_of_le_of_lt (Nat.sub_le r.allocSize r.size) h2)

theorem freeUnits_zero_size (r : Region) (h : r.allocSize < UPTR) :
    freeUnits { r with size := 0 } = r.allocSize := by
  unfold freeUnits
  rw [Nat.sub_zero, Nat.add_mod_right]
  exact Nat.mod_eq_of_lt h

theorem add_le_of_le_sub_free (a s c : Nat) (h1 : a ≤ c) (h2 : s ≤ c - a) : a + s ≤ c :=
  (le_tsub_iff_left h1).mp h2

theorem le_pred_of_lt_sub_free (j m : Nat) (h : j < m - 13) : 13 + j ≤ m - 1 :=
  Nat.le_pred_of_lt (by rw [Nat.add_comm]; exact lt_tsub_iff_right.mp h)

theorem toUnitCount_lt_of_lt (b : Nat) (h : b < UPTR) : toUnitCount b < UPTR := by
  unfold toUnitCount
  rcases Nat.eq_zero_or_pos b with hb | hb
  · subst hb
    decide
  · exact lt_of_le_of_lt (Nat.succ_le_of_lt (Nat.div_lt_self hb (by norm_num))) h

theorem allocUnits_fit (mr : Nat) (mn : Bool) (s : Nat) (r : Region) (rest : List Region)
    (h : s ≤ freeUnits r) :
    allocUnits mr mn s (r :: rest) = (r.region + r.size, bumpRegion r s :: rest) := by
  simp [allocUnits, h]

theorem allocUnits_tail_miss (mr : Nat) (mn : Bool) (s : Nat) (r : Region)
    (h : ¬ s ≤ freeUnits r) :
    allocUnits mr mn s [r] = growAt mr mn s r := by
  simp [allocUnits, h]

theorem allocUnits_step (mr : Nat) (mn : Bool) (s : Nat) (r : Region) (rest : List Region)
    (h : ¬ s ≤ freeUnits r) (hne : rest ≠ []) :
    allocUnits mr mn s (r :: rest) =
      ((allocUnits mr mn s rest).1, r :: (allocUnits mr mn s rest).2) := by
  simp [allocUnits, h, hne]

/-- Growth at a buffered node: a fresh node is created, linked behind
`r` and born holding the allocation. -/
theorem growAt_append (mr : Nat) (mn : Bool) (s cap : Nat) (r : Region)
    (hreg : r.region ≠ 0) (hmr : mr ≠ 0) (hmn : mn = true)
    (hcap : growCapacity s = some cap) :
    growAt mr mn s r = (mr, [r, Region.mk mr (s % UPTR) cap]) := by
  simp [growAt, hcap, hmr, hreg, hmn]

/-- Growth at a bufferless node (the blank head): the buffer is
installed on the node itself. -/
theorem growAt_inplace (mr : Nat) (mn : Bool) (s cap : Nat) (r : Region)
    (hreg : r.region = 0) (hmr : mr ≠ 0) (hcap : growCapacity s = some cap) :
    growAt mr mn s r = (mr, [Region.mk mr ((r.size + s) % UPTR) cap]) := by
  simp [growAt, hcap, hmr, hreg]

/-- Growth fails — overflow of the doubling loop, buffer malloc failure,
or node malloc failure at a buffered node — and the node is untouched. -/
theorem growAt_fail (mr : Nat) (mn : Bool) (s : Nat) (r : Region)
    (hfail : growCapacity s = none ∨ mr = 0 ∨ (r.region ≠ 0 ∧ mn = false)) :
    growAt mr mn s r = (0, [r]) := by
  rcases hfail with h | h | ⟨h1, h2⟩
  · simp [growAt, h]
  · cases hgc : growCapacity s <;> simp [growAt, hgc, h]
  · by_cases hm : mr = 0 <;>
      cases hgc : growCapacity s <;> simp [growAt, hgc, hm, h1, h2]

/-- First-fit: if every node before `r` lacks free space and `r` fits,
the walk serves `r` and only `r`'s `_size` changes. -/
theorem allocUnits_served (mr : Nat) (mn : Bool) (s : Nat) :
    ∀ (c₁ : List Region) (r : Region) (c₂ : List Region),
      (∀ x ∈ c₁, freeUnits x < s) → s ≤ freeUnits r →
      allocUnits mr mn s (c₁ ++ r :: c₂) = (r.region + r.size, c₁ ++ bumpRegion r s :: c₂) := by
  intro c₁
  induction c₁ with
  | nil =>
    intro r c₂ _ hfit
    simpa using allocUnits_fit mr mn s r c₂ hfit
  | cons a c₁ ih =>
    intro r c₂ hmiss hfit
    have ha : ¬ s ≤ freeUnits a := not_le.mpr (hmiss a (List.mem_cons_self a c₁))
    have hne : c₁ ++ r :: c₂ ≠ [] := by simp
    rw [List.cons_append, allocUnits_step mr mn s a (c₁ ++ r :: c₂) ha hne,
      ih r c₂ (fun x hx => hmiss x (List.mem_cons_of_mem a hx)) hfit]
    simp

/-- If no node in the chain has enough free space, the walk reaches the
tail and takes the growth path there; the prefix is untouched. -/
theorem allocUnits_all_miss (mr : Nat) (mn : Bool) (s : Nat) :
    ∀ (c₁ : List Region) (t : Region),
      (∀ x ∈ c₁, freeUnits x < s) → ¬ s ≤ freeUnits t →
      allocUnits mr mn s (c₁ ++ [t]) =
        ((growAt mr mn s t).1, c₁ ++ (growAt mr mn s t).2) := by
  intro c₁
  induction c₁ with
  | nil =>
    intro t _ ht
    rw [List.nil_append, allocUnits_tail_miss mr mn s t ht, List.nil_append]
  | cons a c₁ ih =>
    intro t hmiss ht
    have ha : ¬ s ≤ freeUnits a := not_le.mpr (hmiss a (List.mem_cons_self a c₁))
    have hne : c₁ ++ [t] ≠ [] := by simp
    rw [List.cons_append, allocUnits_step mr mn s a (c₁ ++ [t]) ha hne,
      ih t (fun x hx => hmiss x (List.mem_cons_of_mem a hx)) ht]
    simp

/-- Consecutive resets collapse to a single reset. -/
theorem Arena_reset_iterate (n : Nat) : ∀ c : List Region,
    Arena_reset^[n + 1] c = Arena_reset c := by
  induction n with
  | zero => intro c; rfl
  | succ n ih =>
    intro c
    rw [Function.iterate_succ_apply, ih (Arena_reset c)]
    simp [Arena_reset, List.map_map]


/-! ## The doubling loop -/

theorem growLoop_done (fuel cap s : Nat) (h : ¬ cap < s) :
    growLoop (fuel + 1) cap s = some cap := by
  simp [growLoop, h]

theorem growLoop_step (fuel e s : Nat) (h1 : 2 ^ e < s) (h2 : e < 63) :
    growLoop (fuel + 1) (2 ^ e) s = growLoop fuel (2 ^ (e + 1)) s := by
  have hub : 2 ^ (e + 1) < UPTR := by
    rw [UPTR_eq]
    exact Nat.pow_lt_pow_right (by norm_num) (Nat.succ_lt_succ h2)
  have hmod : 2 ^ e * 2 % UPTR = 2 ^ (e + 1) := by
    rw [← pow_succ]
    exact Nat.mod_eq_of_lt hub
  have hno : ¬ 2 ^ e > 2 ^ e * 2 % UPTR := by
    rw [hmod]
    exact not_lt.mpr (Nat.pow_le_pow_right (by norm_num) (Nat.le_succ e))
  rw [growLoop, if_pos h1, if_neg hno, hmod]

theorem growLoop_overflow (fuel s : Nat) (h : 2 ^ 63 < s) :
    growLoop (fuel + 1) (2 ^ 63) s = none := by
  have hmod : 2 ^ 63 * 2 % UPTR = 0 := by
    rw [← pow_succ, UPTR_eq]
    exact Nat.mod_self (2 ^ 64)
  have hy : 2 ^ 63 > 2 ^ 63 * 2 % UPTR := by
    rw [hmod]
    exact pow_pos (by norm_num) 63
  rw [growLoop, if_pos h, if_pos hy]

/-- Full characterization of the doubling loop from any power-of-two
capacity `2^e` with enough fuel: for `s ≤ 2^63` it returns the first
capacity `2^m ≥ s` reached by doubling from `2^e`; for larger `s` it
detects the wrap at `2^63` and fails. -/
theorem growLoop_char : ∀ (fuel e s : Nat), 13 ≤ e → e ≤ 63 → 64 ≤ fuel + e →
    (s ≤ 2 ^ 63 → ∃ m, e ≤ m ∧ m ≤ 63 ∧ growLoop fuel (2 ^ e) s = some (2 ^ m) ∧
      s ≤ 2 ^ m ∧ (m = e ∨ 2 ^ (m - 1) < s))
    ∧ (2 ^ 63 < s → growLoop fuel (2 ^ e) s = none) := by
  intro fuel
  induction fuel with
  | zero =>
    intro e s h13 h63 hf
    rw [Nat.zero_add] at hf
    exact absurd (le_trans hf h63) (by norm_num)
  | succ fuel ih =>
    intro e s h13 h63 hf
    by_cases hlt : 2 ^ e < s
    · by_cases he : e = 63
      · subst he
        refine ⟨fun hs => absurd hs (not_le.mpr hlt), fun _ => growLoop_overflow fuel s hlt⟩
      · have he' : e < 63 := lt_of_le_of_ne h63 he
        rw [growLoop_step fuel e s hlt he']
        obtain ⟨ihA, ihB⟩ := ih (e + 1) s (Nat.le_succ_of_le h13) he'
          (by rw [Nat.add_succ, ← Nat.succ_add]; exact hf)
        refine ⟨fun hs => ?_, ihB⟩
        obtain ⟨m, hm1, hm2, hm3, hm4, hm5⟩ := ihA hs
        refine ⟨m, le_trans (Nat.le_succ e) hm1, hm2, hm3, hm4, Or.inr ?_⟩
        rcases hm5 with h | h
        · subst h; simpa using hlt
        · exact h
    · exact ⟨fun _ => ⟨e, le_refl e, h63, growLoop_done fuel (2 ^ e) s hlt,
        le_of_not_lt hlt, Or.inl rfl⟩,
      fun hs => absurd (le_trans (le_of_not_lt hlt)
        (Nat.pow_le_pow_right (by norm_num) h63)) (not_le.mpr hs)⟩

/-! ## Claims -/

/-- Claim C1 (code bug): the claim says that after `Arena_free` the head
is indistinguishable from a freshly initialized arena with respect to
buffer, capacity and used.  The code clears every node's buffer (first
conjunct), but on the concrete run init; alloc(4 bytes); free it leaves
the head with `_size = 2` and `_alloc_size = 8192`, which differs from
the `Arena_init` state — `Arena_free` never writes those two fields,
although its own documentation says the root is reinitialized. -/
theorem C1_release_not_reinit :
    (∀ x ∈ Arena_free (Arena_alloc 100 true 4 [Arena_init]).2, x.region = 0) ∧
    Arena_free (Arena_alloc 100 true 4 [Arena_init]).2 = [Region.mk 0 2 8192] ∧
    Region.mk 0 2 8192 ≠ Arena_init := by decide

/-- Claim C2 (code bug): the claimed invariant "buffer present iff
capacity > 0" is not preserved by every operation: after init;
alloc(4 bytes); free, the head has no buffer (`region = 0`) yet a
positive capacity. -/
theorem C2_buffer_iff_capacity_broken :
    ∃ x ∈ Arena_free (Arena_alloc 100 true 4 [Arena_init]).2,
      x.region = 0 ∧ 0 < x.allocSize := by decide

/-- Claim C3, counterexample: on a fresh arena no region qualifies
(the blank head has zero free space), yet no region is appended after
the tail — the chain still has length 1 and its only node is no longer
the old tail, because the blank head was populated in place. -/
theorem C3_counterexample :
    freeUnits Arena_init < toUnitCount 4 ∧
    (Arena_alloc 100 true 4 [Arena_init]).2.length = 1 ∧
    (Arena_alloc 100 true 4 [Arena_init]).2.head? ≠ some Arena_init := by decide

/-- Claim C3, amended: a non-zero request of `s` units is served by the
first region in chain order whose free space is at least `s` (first
conjunct); if no region qualifies the search ends at the tail and, when
the tail already has a buffer, a new region is appended after it (second
conjunct), while a bufferless tail (the still-blank head) is populated
in place instead (third conjunct). -/
theorem C3_first_fit_amended (mr : Nat) (mn : Bool) (s cap : Nat)
    (c₁ c₂ : List Region) (r : Region) :
    ((∀ x ∈ c₁, freeUnits x < s) → s ≤ freeUnits r →
      allocUnits mr mn s (c₁ ++ r :: c₂) = (r.region + r.size, c₁ ++ bumpRegion r s :: c₂))
    ∧ ((∀ x ∈ c₁, freeUnits x < s) → freeUnits r < s → r.region ≠ 0 → mr ≠ 0 →
        mn = true → growCapacity s = some cap →
      allocUnits mr mn s (c₁ ++ [r]) =
        (mr, c₁ ++ [r, Region.mk mr (s % UPTR) cap]))
    ∧ ((∀ x ∈ c₁, freeUnits x < s) → freeUnits r < s → r.region = 0 → mr ≠ 0 →
        growCapacity s = some cap →
      allocUnits mr mn s (c₁ ++ [r]) =
        (mr, c₁ ++ [Region.mk mr ((r.size + s) % UPTR) cap])) := by
  refine ⟨fun hmiss hfit => allocUnits_served mr mn s c₁ r c₂ hmiss hfit,
    fun hmiss hr hreg hmr hmn hcap => ?_, fun hmiss hr hreg hmr hcap => ?_⟩
  · rw [allocUnits_all_miss mr mn s c₁ r hmiss (not_le.mpr hr),
      growAt_append mr mn s cap r hreg hmr hmn hcap]
  · rw [allocUnits_all_miss mr mn s c₁ r hmiss (not_le.mpr hr),
      growAt_inplace mr mn s cap r hreg hmr hcap]

theorem C3_first_fit_amended_witness :
    allocUnits 100 true 2 ([Region.mk 5 8192 8192] ++ Region.mk 100 0 8192 :: []) =
      (100 + 0, [Region.mk 5 8192 8192] ++ bumpRegion (Region.mk 100 0 8192) 2 :: []) ∧
    allocUnits 100 true 2 ([] ++ [Region.mk 5 8192 8192]) =
      (100, [] ++ [Region.mk 5 8192 8192, Region.mk 100 (2 % UPTR) 8192]) ∧
    allocUnits 100 true 2 ([] ++ [Region.mk 0 0 0]) =
      (100, [] ++ [Region.mk 100 ((0 + 2) % UPTR) 8192]) :=
  ⟨(C3_first_fit_amended 100 true 2 8192 [Region.mk 5 8192 8192] [] (Region.mk 100 0 8192)).1
      (by decide) (by decide),
    (C3_first_fit_amended 100 true 2 8192 [] [] (Region.mk 5 8192 8192)).2.1
      (by decide) (by decide) (by decide) (by decide) rfl (by decide),
    (C3_first_fit_amended 100 true 2 8192 [] [] (Region.mk 0 0 0)).2.2
      (by decide) (by decide) rfl (by decide) (by decide)⟩

/-- Claim C4: when the growth path must size a new region for `s` units,
the resulting capacity is the smallest `COOL_ARENA_DEF_SIZE * 2^k ≥ s`
(`k ≥ 0`); and when `s` is so large that doubling would wrap (`s` beyond
2^63), the loop fails instead of producing a wrapped capacity. -/
theorem C4_growth_doubling (s : Nat) :
    (s ≤ 2 ^ 63 → ∃ k, growCapacity s = some (COOL_ARENA_DEF_SIZE * 2 ^ k) ∧
      s ≤ COOL_ARENA_DEF_SIZE * 2 ^ k ∧ ∀ j, j < k → COOL_ARENA_DEF_SIZE * 2 ^ j < s)
    ∧ (2 ^ 63 < s → growCapacity s = none) := by
  have hdef : COOL_ARENA_DEF_SIZE = 2 ^ 13 := by norm_num [COOL_ARENA_DEF_SIZE]
  obtain ⟨hA, hB⟩ := growLoop_char 64 13 s (le_refl 13) (by norm_num) (by norm_num)
  constructor
  · intro hs
    obtain ⟨m, hm1, hm2, hm3, hm4, hm5⟩ := hA hs
    have h13 : 13 + (m - 13) = m := Nat.add_sub_cancel' hm1
    refine ⟨m - 13, ?_, ?_, ?_⟩
    · rw [growCapacity, hdef, hm3, ← pow_add, h13]
    · have hpow : COOL_ARENA_DEF_SIZE * 2 ^ (m - 13) = 2 ^ m := by
        rw [hdef, ← pow_add, h13]
      rw [hpow]
      exact hm4
    · intro j hj
      rcases hm5 with h | h
      · subst h
        exact absurd hj (Nat.not_lt_zero j)
      · calc COOL_ARENA_DEF_SIZE * 2 ^ j = 2 ^ (13 + j) := by rw [hdef, ← pow_add]
          _ ≤ 2 ^ (m - 1) := Nat.pow_le_pow_right (by norm_num) (le_pred_of_lt_sub_free j m hj)
          _ < s := h
  · intro hs
    rw [growCapacity, hdef]
    exact hB hs

theorem C4_growth_doubling_witness :
    (∃ k, growCapacity 3 = some (COOL_ARENA_DEF_SIZE * 2 ^ k) ∧
      3 ≤ COOL_ARENA_DEF_SIZE * 2 ^ k ∧ ∀ j, j < k → COOL_ARENA_DEF_SIZE * 2 ^ j < 3) ∧
    growCapacity (2 ^ 63 + 1) = none :=
  ⟨(C4_growth_doubling 3).1 (by norm_num), (C4_growth_doubling (2 ^ 63 + 1)).2 (by norm_num)⟩

/-- Claim C6: a zero-byte request returns NULL and leaves the arena
completely unmodified, on every arena state and every oracle. -/
theorem C6_zero_size_noop (mr : Nat) (mn : Bool) (c : List Region) :
    Arena_alloc mr mn 0 c = (0, c) := rfl

/-- Claim C10: the call sequence init; alloc(16 bytes, successful);
free; alloc(16 bytes) makes the second allocation take the fast path on
the bufferless head: after free the head keeps `_size = 5` and
`_alloc_size = 8192`, so the free-space check passes although
`_region = NULL`, and the call returns the non-null pointer
`NULL + _size = 5` without consulting the backing allocator at all (both
malloc oracles are set to fail here) and without materializing a
buffer (`region` stays 0). -/
theorem C10_bufferless_fastpath :
    (Arena_alloc 100 true 16 [Arena_init]).1 ≠ 0 ∧
    Arena_free (Arena_alloc 100 true 16 [Arena_init]).2 = [Region.mk 0 5 8192] ∧
    (Region.mk 0 5 8192).region = 0 ∧
    (Arena_alloc 0 false 16 [Region.mk 0 5 8192]).1 = 5 ∧
    (Arena_alloc 0 false 16 [Region.mk 0 5 8192]).1 ≠ 0 ∧
    (Arena_alloc 0 false 16 [Region.mk 0 5 8192]).2 = [Region.mk 0 10 8192] := by decide

/-- Claim C5: whenever `Arena_alloc` fails — capacity overflow in the
doubling loop, malloc failure for the new buffer (`mr = 0`), or malloc
failure for the new chain node (`mn = false`, only reachable when the
tail already has a buffer) — it returns NULL and the chain is exactly
what it was before the call: no `used`, `capacity`, buffer or link of
any region changes and no partially linked region appears. -/
theorem C5_failure_no_mutation (mr : Nat) (mn : Bool) (b : Nat) (c₁ : List Region) (t : Region)
    (hb : b ≠ 0)
    (hmiss : ∀ x ∈ c₁, freeUnits x < toUnitCount b)
    (ht : freeUnits t < toUnitCount b)
    (hfail : growCapacity (toUnitCount b) = none ∨ mr = 0 ∨ (t.region ≠ 0 ∧ mn = false)) :
    Arena_alloc mr mn b (c₁ ++ [t]) = (0, c₁ ++ [t]) := by
  unfold Arena_alloc
  rw [if_neg hb, allocUnits_all_miss mr mn (toUnitCount b) c₁ t hmiss (not_le.mpr ht),
    growAt_fail mr mn (toUnitCount b) t hfail]

theorem C5_failure_no_mutation_witness :
    Arena_alloc 0 true 4 ([] ++ [Arena_init]) = (0, [] ++ [Arena_init]) :=
  C5_failure_no_mutation 0 true 4 [] Arena_init (by decide) (by decide) (by decide)
    (Or.inr (Or.inl rfl))

/-- Claim C8: any number of consecutive `Arena_reset` calls leaves
`used = 0` in every region and changes no capacity or buffer identity
(first conjunct); a subsequent non-zero allocation whose unit count fits
in some existing region's capacity is served by the first such region at
offset zero — the returned pointer is that region's buffer base, only
its `used` becomes the unit count, and the chain keeps exactly the same
regions, so no new region is created (second conjunct); the returned
pointer is non-null (third conjunct). -/
theorem C8_reset_idempotent_reuse (mr : Nat) (mn : Bool) (b n : Nat)
    (c₁ c₂ : List Region) (r : Region)
    (hb : b ≠ 0) (hbU : b < UPTR) (hr : r.region ≠ 0)
    (hwf : ∀ x ∈ c₁ ++ r :: c₂, x.allocSize < UPTR)
    (hmiss : ∀ x ∈ c₁, x.allocSize < toUnitCount b)
    (hfit : toUnitCount b ≤ r.allocSize) :
    Arena_reset^[n + 1] (c₁ ++ r :: c₂) =
      (c₁ ++ r :: c₂).map (fun x => { x with size := 0 }) ∧
    Arena_alloc mr mn b (Arena_reset^[n + 1] (c₁ ++ r :: c₂)) =
      (r.region,
        c₁.map (fun x => { x with size := 0 }) ++
          { r with size := toUnitCount b } :: c₂.map (fun x => { x with size := 0 })) ∧
    (Arena_alloc mr mn b (Arena_reset^[n + 1] (c₁ ++ r :: c₂))).1 ≠ 0 := by
  have hiter : Arena_reset^[n + 1] (c₁ ++ r :: c₂) =
      (c₁ ++ r :: c₂).map (fun x => { x with size := 0 }) :=
    Arena_reset_iterate n (c₁ ++ r :: c₂)
  have hsplit : (c₁ ++ r :: c₂).map (fun x : Region => { x with size := 0 }) =
      c₁.map (fun x => { x with size := 0 }) ++
        ({ r with size := 0 } : Region) :: c₂.map (fun x => { x with size := 0 }) := by
    simp
  have hmiss' : ∀ x ∈ c₁.map (fun x : Region => { x with size := 0 }),
      freeUnits x < toUnitCount b := by
    intro x hx
    obtain ⟨y, hy, rfl⟩ := List.mem_map.mp hx
    rw [freeUnits_zero_size y (hwf y (List.mem_append_left _ hy))]
    exact hmiss y hy
  have hfit' : toUnitCount b ≤ freeUnits { r with size := 0 } := by
    rw [freeUnits_zero_size r (hwf r (List.mem_append_right _ (List.mem_cons_self r c₂)))]
    exact hfit
  have htb : toUnitCount b < UPTR := toUnitCount_lt_of_lt b hbU
  have halloc : Arena_alloc mr mn b (Arena_reset^[n + 1] (c₁ ++ r :: c₂)) =
      (r.region,
        c₁.map (fun x => { x with size := 0 }) ++
          { r with size := toUnitCount b } :: c₂.map (fun x => { x with size := 0 })) := by
    rw [hiter, hsplit]
    unfold Arena_alloc
    rw [if_neg hb, allocUnits_served mr mn (toUnitCount b)
      (c₁.map (fun x => { x with size := 0 })) ({ r with size := 0 })
      (c₂.map (fun x => { x with size := 0 })) hmiss' hfit']
    simp [bumpRegion, Nat.mod_eq_of_lt htb]
  refine ⟨hiter, halloc, ?_⟩
  rw [halloc]
  exact hr

theorem C8_reset_idempotent_reuse_witness :
    Arena_reset^[1] ([] ++ Region.mk 7 5 8192 :: []) =
      ([] ++ Region.mk 7 5 8192 :: []).map (fun x : Region => { x with size := 0 }) ∧
    Arena_alloc 0 false 8 (Arena_reset^[1] ([] ++ Region.mk 7 5 8192 :: [])) =
      ((Region.mk 7 5 8192).region,
        ([] : List Region).map (fun x : Region => { x with size := 0 }) ++
          { Region.mk 7 5 8192 with size := toUnitCount 8 } ::
            ([] : List Region).map (fun x : Region => { x with size := 0 })) ∧
    (Arena_alloc 0 false 8 (Arena_reset^[1] ([] ++ Region.mk 7 5 8192 :: []))).1 ≠ 0 :=
  C8_reset_idempotent_reuse 0 false 8 0 [] [] (Region.mk 7 5 8192)
    (by decide) (by decide) (by decide) (by decide) (by decide) (by decide)

/-- Claim C9: along any sequence of successful fast-path allocations
served from one region that starts with `used ≤ capacity`, `used` is
non-decreasing and never exceeds the region's capacity, and the capacity
itself never changes.  Quantified over every intermediate starting
state, this bounds every step of the sequence. -/
theorem C9_monotonic_usage : ∀ (ss : List Nat) (r r' : Region),
    r.size ≤ r.allocSize → r.allocSize < UPTR → serveSeq r ss = some r' →
    r.size ≤ r'.size ∧ r'.size ≤ r'.allocSize ∧ r'.allocSize = r.allocSize := by
  intro ss
  induction ss with
  | nil =>
    intro r r' h1 h2 hs
    cases hs
    exact ⟨le_refl _, h1, rfl⟩
  | cons s ss ih =>
    intro r r' h1 h2 hs
    by_cases hfit : s ≤ freeUnits r
    · have hstep : fastServe r s = some (bumpRegion r s) := by simp [fastServe, hfit]
      simp only [serveSeq, hstep] at hs
      have hfree : freeUnits r = r.allocSize - r.size := freeUnits_eq r h1 h2
      have hle : r.size + s ≤ r.allocSize :=
        add_le_of_le_sub_free r.size s r.allocSize h1 (hfree ▸ hfit)
      have hbump : (bumpRegion r s).size = r.size + s := by
        simp only [bumpRegion]
        exact Nat.mod_eq_of_lt (lt_of_le_of_lt hle h2)
      have hcap : (bumpRegion r s).allocSize = r.allocSize := rfl
      obtain ⟨ha, hb', hc⟩ := ih (bumpRegion r s) r' (by rw [hbump, hcap]; exact hle)
        (by rw [hcap]; exact h2) hs
      refine ⟨le_trans ?_ ha, hb', by rw [hc, hcap]⟩
      rw [hbump]
      exact Nat.le_add_right r.size s
    · simp [serveSeq, fastServe, hfit] at hs

theorem C9_monotonic_usage_witness :
    (Region.mk 9 0 8192).size ≤ (Region.mk 9 5 8192).size ∧
    (Region.mk 9 5 8192).size ≤ (Region.mk 9 5 8192).allocSize ∧
    (Region.mk 9 5 8192).allocSize = (Region.mk 9 0 8192).allocSize :=
  C9_monotonic_usage [2, 3] (Region.mk 9 0 8192) (Region.mk 9 5 8192)
    (by decide) (by decide) (by decide)
